import Mathlib

/-!
Verification of the mirage ray tracer (desert_mirage / ocean_mirage).

The Python source works on IEEE floats; the embedding idealizes them as exact
rationals (`ℚ`).  The transcendental library functions the code calls
(`math.exp`, `math.hypot`, `math.cos`, `math.sin`, `math.log`) are passed as
explicit function parameters of type `ℚ → ℚ` (resp. `ℚ → ℚ → ℚ`), so every
theorem below quantifies over them; facts that genuinely need a property of the
real function (e.g. that `hypot vx vy` squares to `vx² + vy²`) take that
property as an explicit hypothesis.  Python lists `[x, y, vx, vy]` are embedded
as the 4-field structure `RayState`; the `for … break` loops of `trace_ray`
are embedded as fuel-indexed structural recursion (`Desert.loop`,
`Ocean.loop`), the fuel being the `max_steps` budget of the source.
-/

/-- The `math`-module primitives used by the source, passed explicitly. -/
structure MathFns where
  exp : ℚ → ℚ
  hypot : ℚ → ℚ → ℚ
  cos : ℚ → ℚ
  sin : ℚ → ℚ
  log : ℚ → ℚ

/-- The 4-component integration state; the Python code stores it as the list
`state = [x, y, vx, vy]`. -/
@[ext]
structure RayState where
  x : ℚ
  y : ℚ
  vx : ℚ
  vy : ℚ
deriving DecidableEq

/-- Componentwise sum of two states (used only to state the RK4 combination
formula of the specification). -/
def RayState.add (p q : RayState) : RayState :=
  ⟨p.x + q.x, p.y + q.y, p.vx + q.vx, p.vy + q.vy⟩

/-- Componentwise scaling of a state (used only to state the RK4 combination
formula of the specification). -/
def RayState.smul (c : ℚ) (p : RayState) : RayState :=
  ⟨c * p.x, c * p.y, c * p.vx, c * p.vy⟩

/-- One trial state of `rk4_step`: the comprehension
`[si + c * ki for si, ki in zip(state, k)]` (both files, with `c` being
`0.5 * ds` or `ds`). -/
def rk4_trial (state : RayState) (c : ℚ) (k : RayState) : RayState :=
  ⟨state.x + c * k.x, state.y + c * k.y, state.vx + c * k.vx, state.vy + c * k.vy⟩

/-- `rk4_step` — textually identical in `desert_mirage/integrator.py` and
`ocean_mirage/integrator.py`. -/
def rk4_step (f : ℚ → RayState → RayState) (s : ℚ) (state : RayState) (ds : ℚ) :
    RayState :=
  let k1 := f s state
  let s2 := rk4_trial state (1/2 * ds) k1
  let k2 := f (s + 1/2 * ds) s2
  let s3 := rk4_trial state (1/2 * ds) k2
  let k3 := f (s + 1/2 * ds) s3
  let s4 := rk4_trial state ds k3
  let k4 := f (s + ds) s4
  ⟨state.x + ds / 6 * (k1.x + 2 * k2.x + 2 * k3.x + k4.x),
   state.y + ds / 6 * (k1.y + 2 * k2.y + 2 * k3.y + k4.y),
   state.vx + ds / 6 * (k1.vx + 2 * k2.vx + 2 * k3.vx + k4.vx),
   state.vy + ds / 6 * (k1.vy + 2 * k2.vy + 2 * k3.vy + k4.vy)⟩

/-- `_renorm` — textually identical in both integrator files.  `hypot` is the
`math.hypot` primitive. -/
def _renorm (hypot : ℚ → ℚ → ℚ) (state : RayState) : RayState :=
  let mag := hypot state.vx state.vy
  if mag < 1/10^15 then state
  else ⟨state.x, state.y, state.vx / mag, state.vy / mag⟩

/-- `DomainBounds` — both integrator files declare this dataclass (they differ
only in their default field values, which callers of the embedding pass
explicitly). -/
structure DomainBounds where
  x_min : ℚ
  x_max : ℚ
  y_min : ℚ
  y_max : ℚ
deriving DecidableEq

/-- `DesertAtmosphere` of `desert_mirage/physics.py` (the two temperature
fields are carried but never read by the traced code). -/
structure DesertAtmosphere where
  n_base : ℚ
  delta_n : ℚ
  scale_height : ℚ
  ground_temp : ℚ
  air_temp : ℚ
deriving DecidableEq

/-- `DesertAtmosphere.n`: `n_base - delta_n * exp(-max(y,0) / scale_height)`. -/
def DesertAtmosphere.n (exp : ℚ → ℚ) (atm : DesertAtmosphere) (y : ℚ) : ℚ :=
  atm.n_base - atm.delta_n * exp (-(max y 0) / atm.scale_height)

/-- `DesertAtmosphere.dn_dy`:
`(delta_n / scale_height) * exp(-max(y,0) / scale_height)`. -/
def DesertAtmosphere.dn_dy (exp : ℚ → ℚ) (atm : DesertAtmosphere) (y : ℚ) : ℚ :=
  atm.delta_n / atm.scale_height * exp (-(max y 0) / atm.scale_height)

/-- `OceanAtmosphere` of `ocean_mirage/physics.py`. -/
structure OceanAtmosphere where
  n_base : ℚ
  a : ℚ
  b : ℚ
  h1 : ℚ
  h2 : ℚ
  sea_temp : ℚ
  air_temp : ℚ
  ducting_enabled : Bool
deriving DecidableEq

/-- `OceanAtmosphere.n`, including the monotonic fallback profile of the
`ducting_enabled = False` branch. -/
def OceanAtmosphere.n (exp : ℚ → ℚ) (atm : OceanAtmosphere) (y : ℚ) : ℚ :=
  let y_c := max y 0
  if atm.ducting_enabled = false then
    atm.n_base - 3/100000 * (1 - exp (-y_c / 8000))
  else
    atm.n_base + atm.a * exp (-y_c / atm.h1) - atm.b * exp (-y_c / atm.h2)

/-- `OceanAtmosphere.dn_dy`. -/
def OceanAtmosphere.dn_dy (exp : ℚ → ℚ) (atm : OceanAtmosphere) (y : ℚ) : ℚ :=
  let y_c := max y 0
  if atm.ducting_enabled = false then
    -(3/100000) / 8000 * exp (-y_c / 8000)
  else
    -(atm.a / atm.h1) * exp (-y_c / atm.h1) + atm.b / atm.h2 * exp (-y_c / atm.h2)

/-- `OceanAtmosphere.duct_height`: closed-form height of the duct, with `-1`
sentinel for every degenerate configuration.  `log` is `math.log`. -/
def OceanAtmosphere.duct_height (log : ℚ → ℚ) (atm : OceanAtmosphere) : ℚ :=
  if atm.ducting_enabled = false then -1
  else
    let r := atm.a * atm.h2 / (atm.b * atm.h1 + 1/10^30)
    if r ≤ 0 then -1
    else
      let dh := atm.h2 - atm.h1
      if |dh| < 1/10^6 then -1
      else
        let y_star := atm.h1 * atm.h2 / dh * log r
        if y_star > 0 then y_star else -1

namespace Desert

/-- `ray_ode` of `desert_mirage/physics.py`; `phase` is accepted and never
read, `s` (the arc length) likewise. -/
def ray_ode (exp : ℚ → ℚ) (atm : DesertAtmosphere) (phase : ℚ) (s : ℚ)
    (state : RayState) : RayState :=
  ⟨state.vx, state.vy,
   -(state.vy * state.vx / atm.n exp state.y) * atm.dn_dy exp state.y,
   state.vx * state.vx / atm.n exp state.y * atm.dn_dy exp state.y⟩

end Desert

namespace Ocean

/-- `ray_ode` of `ocean_mirage/physics.py` (no `phase` parameter). -/
def ray_ode (exp : ℚ → ℚ) (atm : OceanAtmosphere) (s : ℚ) (state : RayState) :
    RayState :=
  ⟨state.vx, state.vy,
   -(state.vy * state.vx / atm.n exp state.y) * atm.dn_dy exp state.y,
   state.vx * state.vx / atm.n exp state.y * atm.dn_dy exp state.y⟩

end Ocean

lemma rk4_trial_eq_add_smul (st k : RayState) (c : ℚ) :
    rk4_trial st c k = st.add (RayState.smul c k) := rfl

/-- C1: `rk4_step` is the standard explicit RK4 combination
`state + (ds/6)·(k1 + 2k2 + 2k3 + k4)` with `k1 = f s state`,
`k2 = f (s+ds/2) (state + (ds/2)k1)`, `k3 = f (s+ds/2) (state + (ds/2)k2)`,
`k4 = f (s+ds) (state + ds·k3)`; and both variants' `ray_ode` return
`(vx, vy, -(vy·vx/n(y))·dn_dy(y), (vx·vx/n(y))·dn_dy(y))`. -/
theorem rk4_and_ray_ode_spec :
    (∀ (f : ℚ → RayState → RayState) (s : ℚ) (state : RayState) (ds : ℚ),
      rk4_step f s state ds =
        (let k1 := f s state
         let k2 := f (s + ds/2) (state.add (RayState.smul (ds/2) k1))
         let k3 := f (s + ds/2) (state.add (RayState.smul (ds/2) k2))
         let k4 := f (s + ds) (state.add (RayState.smul ds k3))
         state.add (RayState.smul (ds/6)
           (((k1.add (RayState.smul 2 k2)).add (RayState.smul 2 k3)).add k4))))
    ∧ (∀ (exp : ℚ → ℚ) (atm : DesertAtmosphere) (phase s : ℚ) (state : RayState),
        Desert.ray_ode exp atm phase s state =
          ⟨state.vx, state.vy,
           -(state.vy * state.vx / atm.n exp state.y) * atm.dn_dy exp state.y,
           state.vx * state.vx / atm.n exp state.y * atm.dn_dy exp state.y⟩)
    ∧ (∀ (exp : ℚ → ℚ) (atm : OceanAtmosphere) (s : ℚ) (state : RayState),
        Ocean.ray_ode exp atm s state =
          ⟨state.vx, state.vy,
           -(state.vy * state.vx / atm.n exp state.y) * atm.dn_dy exp state.y,
           state.vx * state.vx / atm.n exp state.y * atm.dn_dy exp state.y⟩) := by
  refine ⟨?_, fun _ _ _ _ _ => rfl, fun _ _ _ _ => rfl⟩
  intro f s state ds
  have h : (1/2 : ℚ) * ds = ds/2 := by ring
  simp only [rk4_step, rk4_trial_eq_add_smul, h]
  ext <;> simp [RayState.add, RayState.smul] <;> ring

/-- Outcome of one iteration of a `trace_ray` loop body: `stop` models the
Python `break`, `cont` falling through to the next `for` iteration. -/
inductive StepOut (σ : Type) where
  | stop (ls : σ)
  | cont (ls : σ)
deriving DecidableEq

/-- The loop state carried into the next iteration (or left behind by the
`break`), whichever of the two outcomes occurred. -/
def StepOut.get {σ : Type} : StepOut σ → σ
  | .stop ls => ls
  | .cont ls => ls

/-- Whether the iteration executed a `break`. -/
def StepOut.isStop {σ : Type} : StepOut σ → Bool
  | .stop _ => true
  | .cont _ => false

namespace Desert

/-- The mutable locals of the desert `trace_ray` loop. -/
structure LoopSt where
  state : RayState
  points : List (ℚ × ℚ)
  has_tp : Bool
  tp_y : ℚ
  prev_vy : ℚ
  s : ℚ
deriving DecidableEq

/-- The adaptive step size of the desert loop:
`ds * max(0.12, y/(1.5*scale_height))` below `1.5*scale_height`, else `ds`. -/
def local_step (scale_height ds y_cur : ℚ) : ℚ :=
  if y_cur < scale_height * (3/2) then ds * max (12/100) (y_cur / (scale_height * (3/2)))
  else ds

/-- One iteration of the desert `trace_ray` loop (`integrator.py` lines
83–112): RK4 advance, renormalize, turning-point bookkeeping, ground clamp,
domain-exit `break`, decimated recording. -/
def body (hypot : ℚ → ℚ → ℚ) (f : ℚ → RayState → RayState) (scale_height ds : ℚ)
    (domain : DomainBounds) (record_every : ℕ) (step_i : ℕ) (ls : LoopSt) :
    StepOut LoopSt :=
  let local_ds := local_step scale_height ds ls.state.y
  let st1 := _renorm hypot (rk4_step f ls.s ls.state local_ds)
  let s' := ls.s + local_ds
  let hit := ls.prev_vy * st1.vy < 0 ∧ ls.has_tp = false
  let has_tp' := if hit then true else ls.has_tp
  let tp_y' := if hit then st1.y else ls.tp_y
  let st2 := if st1.y < domain.y_min then
      { st1 with y := domain.y_min + 1/1000, vy := |st1.vy| }
    else st1
  if st2.x < domain.x_min ∨ st2.x > domain.x_max ∨ st2.y > domain.y_max then
    .stop { state := st2, points := ls.points ++ [(st2.x, st2.y)],
            has_tp := has_tp', tp_y := tp_y', prev_vy := st1.vy, s := s' }
  else if step_i % record_every = 0 then
    .cont { state := st2, points := ls.points ++ [(st2.x, st2.y)],
            has_tp := has_tp', tp_y := tp_y', prev_vy := st1.vy, s := s' }
  else
    .cont { state := st2, points := ls.points,
            has_tp := has_tp', tp_y := tp_y', prev_vy := st1.vy, s := s' }

/-- The desert `for step_i in range(max_steps)` loop, by recursion on the
remaining step budget. -/
def loop (hypot : ℚ → ℚ → ℚ) (f : ℚ → RayState → RayState) (scale_height ds : ℚ)
    (domain : DomainBounds) (record_every : ℕ) :
    ℕ → ℕ → LoopSt → LoopSt
  | 0, _, ls => ls
  | fuel + 1, step_i, ls =>
    match body hypot f scale_height ds domain record_every step_i ls with
    | .stop ls' => ls'
    | .cont ls' => loop hypot f scale_height ds domain record_every fuel (step_i + 1) ls'

/-- `RayResult` of `desert_mirage/integrator.py`. -/
structure RayResult where
  points : List (ℚ × ℚ)
  has_turning_point : Bool
  turning_y : ℚ
  final_y : ℚ
deriving DecidableEq

/-- The desert `trace_ray` (μ carries the `math` primitives). -/
def trace_ray (μ : MathFns) (atm : DesertAtmosphere) (x0 y0 theta0 ds : ℚ)
    (max_steps : ℕ) (domain : DomainBounds) (phase : ℚ) (record_every : ℕ) :
    RayResult :=
  let vx0 := μ.cos theta0
  let vy0 := μ.sin theta0
  let init : LoopSt :=
    { state := ⟨x0, y0, vx0, vy0⟩, points := [(x0, y0)], has_tp := false,
      tp_y := 0, prev_vy := vy0, s := 0 }
  let out := loop μ.hypot (ray_ode μ.exp atm phase) atm.scale_height ds domain
    record_every max_steps 0 init
  { points := out.points, has_turning_point := out.has_tp,
    turning_y := out.tp_y, final_y := out.state.y }

end Desert

namespace Ocean

/-- The mutable locals of the ocean `trace_ray` loop. -/
structure LoopSt where
  state : RayState
  points : List (ℚ × ℚ)
  prev_vy : ℚ
  oscillations : ℕ
  min_y : ℚ
  max_y : ℚ
  s : ℚ
deriving DecidableEq

/-- One iteration of the ocean `trace_ray` loop (`integrator.py` lines
76–93): fixed-step RK4 advance, renormalize, min/max and oscillation
bookkeeping, sub-surface terminating `break` (with clamped recorded point),
other domain exits, decimated recording. -/
def body (hypot : ℚ → ℚ → ℚ) (f : ℚ → RayState → RayState) (ds : ℚ)
    (domain : DomainBounds) (record_every : ℕ) (step_i : ℕ) (ls : LoopSt) :
    StepOut LoopSt :=
  let st1 := _renorm hypot (rk4_step f ls.s ls.state ds)
  let s' := ls.s + ds
  let min' := min ls.min_y st1.y
  let max' := max ls.max_y st1.y
  let osc' := if ls.prev_vy * st1.vy < 0 then ls.oscillations + 1 else ls.oscillations
  if st1.y < domain.y_min then
    .stop { state := st1, points := ls.points ++ [(st1.x, max st1.y 0)],
            prev_vy := st1.vy, oscillations := osc', min_y := min', max_y := max', s := s' }
  else if st1.x < domain.x_min ∨ st1.x > domain.x_max ∨ st1.y > domain.y_max then
    .stop { state := st1, points := ls.points ++ [(st1.x, st1.y)],
            prev_vy := st1.vy, oscillations := osc', min_y := min', max_y := max', s := s' }
  else if step_i % record_every = 0 then
    .cont { state := st1, points := ls.points ++ [(st1.x, st1.y)],
            prev_vy := st1.vy, oscillations := osc', min_y := min', max_y := max', s := s' }
  else
    .cont { state := st1, points := ls.points,
            prev_vy := st1.vy, oscillations := osc', min_y := min', max_y := max', s := s' }

/-- The ocean `for step_i in range(max_steps)` loop. -/
def loop (hypot : ℚ → ℚ → ℚ) (f : ℚ → RayState → RayState) (ds : ℚ)
    (domain : DomainBounds) (record_every : ℕ) :
    ℕ → ℕ → LoopSt → LoopSt
  | 0, _, ls => ls
  | fuel + 1, step_i, ls =>
    match body hypot f ds domain record_every step_i ls with
    | .stop ls' => ls'
    | .cont ls' => loop hypot f ds domain record_every fuel (step_i + 1) ls'

/-- `RayResult` of `ocean_mirage/integrator.py`. -/
structure RayResult where
  points : List (ℚ × ℚ)
  is_trapped : Bool
  oscillations : ℕ
  min_y : ℚ
  max_y : ℚ
  final_y : ℚ
deriving DecidableEq

/-- The ocean `trace_ray`. -/
def trace_ray (μ : MathFns) (atm : OceanAtmosphere) (x0 y0 theta0 ds : ℚ)
    (max_steps : ℕ) (domain : DomainBounds) (record_every : ℕ) : RayResult :=
  let vx0 := μ.cos theta0
  let vy0 := μ.sin theta0
  let init : LoopSt :=
    { state := ⟨x0, y0, vx0, vy0⟩, points := [(x0, y0)], prev_vy := vy0,
      oscillations := 0, min_y := y0, max_y := y0, s := 0 }
  let out := loop μ.hypot (ray_ode μ.exp atm) ds domain record_every max_steps 0 init
  { points := out.points,
    is_trapped := decide (2 ≤ out.oscillations ∧ (1/2 : ℚ) < out.min_y),
    oscillations := out.oscillations, min_y := out.min_y, max_y := out.max_y,
    final_y := out.state.y }

end Ocean

/-- C2: `_renorm` leaves the state unchanged when `hypot vx vy < 1e-15`, and
otherwise divides both direction components by `hypot vx vy` leaving `x, y`
unchanged; consequently the state produced by `_renorm` after an `rk4_step`
(the post-step state of every completed `trace_ray` iteration, both variants)
has unit-magnitude direction whenever the velocity is non-degenerate and
`hypot` is exact (`hypot(a,b)² = a² + b²`): the squared magnitude is exactly 1
and in particular lies within `[(1-1e-9)², (1+1e-9)²]`. -/
theorem renorm_spec_and_unit_magnitude :
    (∀ (hypot : ℚ → ℚ → ℚ) (st : RayState),
      (hypot st.vx st.vy < 1/10^15 → _renorm hypot st = st)
      ∧ (¬ hypot st.vx st.vy < 1/10^15 →
          _renorm hypot st =
            ⟨st.x, st.y, st.vx / hypot st.vx st.vy, st.vy / hypot st.vx st.vy⟩))
    ∧ (∀ (hypot : ℚ → ℚ → ℚ) (f : ℚ → RayState → RayState) (s ds : ℚ)
        (st st1 : RayState), st1 = rk4_step f s st ds →
        (hypot st1.vx st1.vy)^2 = st1.vx^2 + st1.vy^2 →
        1/10^15 ≤ hypot st1.vx st1.vy →
        ((_renorm hypot st1).vx^2 + (_renorm hypot st1).vy^2 = 1
         ∧ ((1 : ℚ) - 1/10^9)^2 ≤ (_renorm hypot st1).vx^2 + (_renorm hypot st1).vy^2
         ∧ (_renorm hypot st1).vx^2 + (_renorm hypot st1).vy^2 ≤ ((1 : ℚ) + 1/10^9)^2)) := by
  constructor
  · intro hypot st
    constructor
    · intro h
      simp only [_renorm, if_pos h]
    · intro h
      simp only [_renorm, if_neg h]
  · intro hypot f s ds st st1 _ hsq hmag
    have hpos : 0 < hypot st1.vx st1.vy := lt_of_lt_of_le (by norm_num) hmag
    have hne : hypot st1.vx st1.vy ≠ 0 := ne_of_gt hpos
    have hnotlt : ¬ hypot st1.vx st1.vy < 1/10^15 := not_lt.mpr hmag
    have hunit : (_renorm hypot st1).vx^2 + (_renorm hypot st1).vy^2 = 1 := by
      simp only [_renorm, if_neg hnotlt]
      rw [div_pow, div_pow, div_add_div_same, ← hsq, div_self (pow_ne_zero 2 hne)]
    refine ⟨hunit, ?_, ?_⟩
    · rw [hunit]; norm_num
    · rw [hunit]; norm_num

/-- C2 witness: the theorem instantiated at `hypot = const 1`,
`f = const 0`, `ds = 0` and the state `(0, 0, 3/5, 4/5)` (for the
unit-magnitude part), and at a state with `hypot`-value below and above the
`1e-15` floor (for the two `_renorm` branch descriptions). -/
theorem renorm_spec_and_unit_magnitude_witness :
    (_renorm (fun _ _ => 0) ⟨1, 2, 3, 4⟩ = ⟨1, 2, 3, 4⟩)
    ∧ (_renorm (fun _ _ => 2) ⟨1, 2, 3, 4⟩ = ⟨1, 2, 3/2, 2⟩)
    ∧ ((_renorm (fun _ _ => 1) (rk4_step (fun _ _ => ⟨0, 0, 0, 0⟩) 0 ⟨0, 0, 3/5, 4/5⟩ 0)).vx^2
        + (_renorm (fun _ _ => 1) (rk4_step (fun _ _ => ⟨0, 0, 0, 0⟩) 0 ⟨0, 0, 3/5, 4/5⟩ 0)).vy^2 = 1) := by
  refine ⟨?_, ?_, ?_⟩
  · exact (renorm_spec_and_unit_magnitude.1 (fun _ _ => 0) ⟨1, 2, 3, 4⟩).1 (by norm_num)
  · have h := (renorm_spec_and_unit_magnitude.1 (fun _ _ => 2) ⟨1, 2, 3, 4⟩).2 (by norm_num)
    rw [h]
    norm_num
  · exact (renorm_spec_and_unit_magnitude.2 (fun _ _ => 1) (fun _ _ => ⟨0, 0, 0, 0⟩) 0 0
      ⟨0, 0, 3/5, 4/5⟩ _ rfl (by norm_num [rk4_step, rk4_trial])
      (by norm_num [rk4_step, rk4_trial])).1

lemma Ocean.body_get_min_y_le (hypot : ℚ → ℚ → ℚ) (f : ℚ → RayState → RayState)
    (ds : ℚ) (domain : DomainBounds) (record_every step_i : ℕ) (ls : LoopSt) :
    ((Ocean.body hypot f ds domain record_every step_i ls).get).min_y ≤ ls.min_y := by
  simp only [Ocean.body]
  split_ifs <;> simp [StepOut.get]

lemma Ocean.loop_min_y_le (hypot : ℚ → ℚ → ℚ) (f : ℚ → RayState → RayState)
    (ds : ℚ) (domain : DomainBounds) (record_every : ℕ) :
    ∀ (fuel step_i : ℕ) (ls : LoopSt),
      (Ocean.loop hypot f ds domain record_every fuel step_i ls).min_y ≤ ls.min_y := by
  intro fuel
  induction fuel with
  | zero => intro step_i ls; simp [Ocean.loop]
  | succ n ih =>
    intro step_i ls
    have hb := Ocean.body_get_min_y_le hypot f ds domain record_every step_i ls
    rw [Ocean.loop]
    cases h : Ocean.body hypot f ds domain record_every step_i ls with
    | stop ls' => rw [h] at hb; exact hb
    | cont ls' =>
      rw [h] at hb
      exact le_trans (ih (step_i + 1) ls') hb

/-- C5: the ocean `trace_ray` classifies `is_trapped = true` exactly when the
counted sign changes of the vertical velocity are at least 2 and the running
minimum height stayed strictly above `0.5`; the running minimum includes the
launch height (so it is at most `y0`). -/
theorem ocean_is_trapped_iff (μ : MathFns) (atm : OceanAtmosphere)
    (x0 y0 theta0 ds : ℚ) (max_steps : ℕ) (domain : DomainBounds)
    (record_every : ℕ) :
    ((Ocean.trace_ray μ atm x0 y0 theta0 ds max_steps domain record_every).is_trapped = true
      ↔ (2 ≤ (Ocean.trace_ray μ atm x0 y0 theta0 ds max_steps domain record_every).oscillations
         ∧ (1/2 : ℚ) < (Ocean.trace_ray μ atm x0 y0 theta0 ds max_steps domain record_every).min_y))
    ∧ (Ocean.trace_ray μ atm x0 y0 theta0 ds max_steps domain record_every).min_y ≤ y0 := by
  constructor
  · simp [Ocean.trace_ray]
  · simpa [Ocean.trace_ray] using
      Ocean.loop_min_y_le μ.hypot (Ocean.ray_ode μ.exp atm) ds domain record_every
        max_steps 0
        { state := ⟨x0, y0, μ.cos theta0, μ.sin theta0⟩, points := [(x0, y0)],
          prev_vy := μ.sin theta0, oscillations := 0, min_y := y0, max_y := y0, s := 0 }

/-- C9: the desert `trace_ray` and `ray_ode` accept a `phase` argument that
has no influence whatsoever on the result. -/
theorem desert_phase_has_no_effect (μ : MathFns) (atm : DesertAtmosphere)
    (x0 y0 theta0 ds : ℚ) (max_steps : ℕ) (domain : DomainBounds)
    (phase1 phase2 : ℚ) (record_every : ℕ) :
    Desert.trace_ray μ atm x0 y0 theta0 ds max_steps domain phase1 record_every
      = Desert.trace_ray μ atm x0 y0 theta0 ds max_steps domain phase2 record_every
    ∧ ∀ (exp : ℚ → ℚ) (s : ℚ) (st : RayState),
        Desert.ray_ode exp atm phase1 s st = Desert.ray_ode exp atm phase2 s st :=
  ⟨rfl, fun _ _ _ => rfl⟩

/-- Concrete stand-ins for the `math` primitives, used by the closed concrete
instances below (the structural theorems hold for arbitrary primitives). -/
def demoFns : MathFns :=
  { exp := fun _ => 1, hypot := fun _ _ => 1, cos := fun _ => 0,
    sin := fun _ => -1, log := fun _ => 1 }

/-- A concrete ocean atmosphere with `a = b = 0` (zero index gradient, so
rays travel straight), used by the closed concrete instances below. -/
def demoOceanAtm : OceanAtmosphere :=
  { n_base := 1, a := 0, b := 0, h1 := 12, h2 := 40, sea_temp := 10,
    air_temp := 25, ducting_enabled := true }

/-- A concrete desert atmosphere (the dataclass defaults of the source). -/
def demoDesertAtm : DesertAtmosphere :=
  { n_base := 1000293/1000000, delta_n := 3/12500, scale_height := 3,
    ground_temp := 65, air_temp := 28 }

/-- C10: the ocean `trace_ray` reports `final_y` as the raw height of the last
integration state, with no clamping; concretely, a ray launched straight down
from height 1/2 terminates below the surface with `final_y = -1/2 < 0` while
the last recorded point of its path is the clamped `(5, 0)`. -/
theorem ocean_final_y_unclamped :
    (∀ (μ : MathFns) (atm : OceanAtmosphere) (x0 y0 theta0 ds : ℚ)
       (max_steps : ℕ) (domain : DomainBounds) (record_every : ℕ),
       (Ocean.trace_ray μ atm x0 y0 theta0 ds max_steps domain record_every).final_y =
         (Ocean.loop μ.hypot (Ocean.ray_ode μ.exp atm) ds domain record_every max_steps 0
           { state := ⟨x0, y0, μ.cos theta0, μ.sin theta0⟩, points := [(x0, y0)],
             prev_vy := μ.sin theta0, oscillations := 0, min_y := y0, max_y := y0,
             s := 0 }).state.y)
    ∧ ((Ocean.trace_ray demoFns demoOceanAtm 5 (1/2) 0 1 5 ⟨0, 100, 0, 100⟩ 1).final_y = -1/2
       ∧ (Ocean.trace_ray demoFns demoOceanAtm 5 (1/2) 0 1 5 ⟨0, 100, 0, 100⟩ 1).points.getLast?
           = some (5, 0)) := by
  refine ⟨fun _ _ _ _ _ _ _ _ _ => rfl, ?_, ?_⟩ <;>
    norm_num [Ocean.trace_ray, Ocean.loop, Ocean.body, Ocean.ray_ode,
      OceanAtmosphere.n, OceanAtmosphere.dn_dy, _renorm, rk4_step, rk4_trial,
      demoFns, demoOceanAtm]

/-- C8: both `trace_ray` variants are deterministic — two invocations whose
atmosphere parameters, domain bounds, launch parameters, step/budget/decimation
settings and `math` primitives are equal return equal `RayResult`s in every
field.  (The embedded drivers read nothing but their arguments, mirroring the
source, which consults no global or random state.) -/
theorem trace_ray_deterministic :
    (∀ (μ μ' : MathFns) (atm atm' : DesertAtmosphere) (x0 x0' y0 y0' t0 t0' ds ds' : ℚ)
       (ms ms' : ℕ) (dom dom' : DomainBounds) (ph ph' : ℚ) (re re' : ℕ),
       μ = μ' → atm = atm' → x0 = x0' → y0 = y0' → t0 = t0' → ds = ds' →
       ms = ms' → dom = dom' → ph = ph' → re = re' →
       Desert.trace_ray μ atm x0 y0 t0 ds ms dom ph re
         = Desert.trace_ray μ' atm' x0' y0' t0' ds' ms' dom' ph' re')
    ∧ (∀ (μ μ' : MathFns) (atm atm' : OceanAtmosphere) (x0 x0' y0 y0' t0 t0' ds ds' : ℚ)
       (ms ms' : ℕ) (dom dom' : DomainBounds) (re re' : ℕ),
       μ = μ' → atm = atm' → x0 = x0' → y0 = y0' → t0 = t0' → ds = ds' →
       ms = ms' → dom = dom' → re = re' →
       Ocean.trace_ray μ atm x0 y0 t0 ds ms dom re
         = Ocean.trace_ray μ' atm' x0' y0' t0' ds' ms' dom' re') := by
  constructor
  · rintro μ _ atm _ x0 _ y0 _ t0 _ ds _ ms _ dom _ ph _ re _
      rfl rfl rfl rfl rfl rfl rfl rfl rfl rfl
    rfl
  · rintro μ _ atm _ x0 _ y0 _ t0 _ ds _ ms _ dom _ re _
      rfl rfl rfl rfl rfl rfl rfl rfl rfl
    rfl

/-- C8 witness: determinism applied to a concrete repeated invocation of each
variant. -/
theorem trace_ray_deterministic_witness :
    Desert.trace_ray demoFns demoDesertAtm 0 1 0 1 3 ⟨0, 3000, 0, 200⟩ 0 8
      = Desert.trace_ray demoFns demoDesertAtm 0 1 0 1 3 ⟨0, 3000, 0, 200⟩ 0 8
    ∧ Ocean.trace_ray demoFns demoOceanAtm 5 (1/2) 0 1 5 ⟨0, 100, 0, 100⟩ 1
      = Ocean.trace_ray demoFns demoOceanAtm 5 (1/2) 0 1 5 ⟨0, 100, 0, 100⟩ 1 :=
  ⟨trace_ray_deterministic.1 demoFns demoFns demoDesertAtm demoDesertAtm
      0 0 1 1 0 0 1 1 3 3 ⟨0, 3000, 0, 200⟩ ⟨0, 3000, 0, 200⟩ 0 0 8 8
      rfl rfl rfl rfl rfl rfl rfl rfl rfl rfl,
   trace_ray_deterministic.2 demoFns demoFns demoOceanAtm demoOceanAtm
      5 5 (1/2) (1/2) 0 0 1 1 5 5 ⟨0, 100, 0, 100⟩ ⟨0, 100, 0, 100⟩ 1 1
      rfl rfl rfl rfl rfl rfl rfl rfl rfl⟩

/-- C7: `duct_height` returns the sentinel `-1` exactly when ducting is
disabled, or the argument of the logarithm (the ratio
`a*h2 / (b*h1 + 1e-30)`, in particular `0` when `a = 0`) is `≤ 0`, or
`|h2 - h1|` is below the degeneracy threshold `1e-6`, or the solved
`y* = (h1*h2/(h2-h1))*log(ratio)` is `≤ 0`; in every other case it returns
that positive `y*`. -/
theorem duct_height_sentinel_iff (log : ℚ → ℚ) (atm : OceanAtmosphere) :
    (OceanAtmosphere.duct_height log atm = -1 ↔
      atm.ducting_enabled = false
      ∨ atm.a * atm.h2 / (atm.b * atm.h1 + 1/10^30) ≤ 0
      ∨ |atm.h2 - atm.h1| < 1/10^6
      ∨ atm.h1 * atm.h2 / (atm.h2 - atm.h1)
          * log (atm.a * atm.h2 / (atm.b * atm.h1 + 1/10^30)) ≤ 0)
    ∧ (atm.a = 0 → OceanAtmosphere.duct_height log atm = -1)
    ∧ (¬ (atm.ducting_enabled = false
          ∨ atm.a * atm.h2 / (atm.b * atm.h1 + 1/10^30) ≤ 0
          ∨ |atm.h2 - atm.h1| < 1/10^6
          ∨ atm.h1 * atm.h2 / (atm.h2 - atm.h1)
              * log (atm.a * atm.h2 / (atm.b * atm.h1 + 1/10^30)) ≤ 0) →
        (OceanAtmosphere.duct_height log atm
           = atm.h1 * atm.h2 / (atm.h2 - atm.h1)
               * log (atm.a * atm.h2 / (atm.b * atm.h1 + 1/10^30))
         ∧ 0 < OceanAtmosphere.duct_height log atm)) := by
  simp only [OceanAtmosphere.duct_height]
  split_ifs with h1 h2 h3 h4
  · exact ⟨⟨fun _ => Or.inl h1, fun _ => rfl⟩, fun _ => rfl,
      fun hn => absurd (Or.inl h1) hn⟩
  · exact ⟨⟨fun _ => Or.inr (Or.inl h2), fun _ => rfl⟩, fun _ => rfl,
      fun hn => absurd (Or.inr (Or.inl h2)) hn⟩
  · exact ⟨⟨fun _ => Or.inr (Or.inr (Or.inl h3)), fun _ => rfl⟩, fun _ => rfl,
      fun hn => absurd (Or.inr (Or.inr (Or.inl h3))) hn⟩
  · refine ⟨⟨fun he => ?_, fun hd => ?_⟩, fun ha => ?_, fun _ => ⟨rfl, h4⟩⟩
    · rw [he] at h4
      exact absurd h4 (by norm_num)
    · rcases hd with h | h | h | h
      · exact absurd h h1
      · exact absurd h h2
      · exact absurd h h3
      · exact absurd h4 (not_lt.mpr h)
    · exact absurd (show atm.a * atm.h2 / (atm.b * atm.h1 + 1/10^30) ≤ 0 by
        rw [ha]; simp) h2
  · exact ⟨⟨fun _ => Or.inr (Or.inr (Or.inr (not_lt.mp h4))), fun _ => rfl⟩,
      fun _ => rfl, fun hn => absurd (Or.inr (Or.inr (Or.inr (not_lt.mp h4)))) hn⟩

/-- C7 witness: for `h1 = 1, h2 = 2, a = 3, b = 1` and `log` the constant-1
function, `duct_height` returns the positive solution `2`; and with `a = 0`
(log argument `0`) it returns the sentinel. -/
theorem duct_height_sentinel_iff_witness :
    OceanAtmosphere.duct_height (fun _ => 1)
        (⟨1, 3, 1, 1, 2, 10, 25, true⟩ : OceanAtmosphere) = 2
    ∧ 0 < OceanAtmosphere.duct_height (fun _ => 1)
        (⟨1, 3, 1, 1, 2, 10, 25, true⟩ : OceanAtmosphere)
    ∧ OceanAtmosphere.duct_height (fun _ => 1)
        (⟨1, 0, 1, 1, 2, 10, 25, true⟩ : OceanAtmosphere) = -1 := by
  have h := (duct_height_sentinel_iff (fun _ => 1)
    (⟨1, 3, 1, 1, 2, 10, 25, true⟩ : OceanAtmosphere)).2.2 (by
      push_neg
      refine ⟨by simp, by positivity, by norm_num, ?_⟩
      positivity)
  have h0 := (duct_height_sentinel_iff (fun _ => 1)
    (⟨1, 0, 1, 1, 2, 10, 25, true⟩ : OceanAtmosphere)).2.1 rfl
  refine ⟨?_, h.2, h0⟩
  rw [h.1]
  norm_num

/-- The desert termination condition: the state left the domain through a
side or the top (`integrator.py` line 110). -/
def Desert.out_of_domain (domain : DomainBounds) (st : RayState) : Prop :=
  st.x < domain.x_min ∨ st.x > domain.x_max ∨ st.y > domain.y_max

instance (domain : DomainBounds) (st : RayState) :
    Decidable (Desert.out_of_domain domain st) := by
  unfold Desert.out_of_domain; infer_instance

lemma desert_body_stop_char (hypot : ℚ → ℚ → ℚ) (f : ℚ → RayState → RayState)
    (scale_height ds : ℚ) (domain : DomainBounds) (record_every step_i : ℕ)
    (ls ls' : Desert.LoopSt)
    (h : Desert.body hypot f scale_height ds domain record_every step_i ls = .stop ls') :
    ls'.points = ls.points ++ [(ls'.state.x, ls'.state.y)]
    ∧ Desert.out_of_domain domain ls'.state := by
  simp only [Desert.body] at h
  split_ifs at h with h1 h2 h3 h4 <;> cases h <;>
    exact ⟨rfl, by simp only [Desert.out_of_domain]; assumption⟩

lemma desert_body_cont_char (hypot : ℚ → ℚ → ℚ) (f : ℚ → RayState → RayState)
    (scale_height ds : ℚ) (domain : DomainBounds) (record_every step_i : ℕ)
    (ls ls' : Desert.LoopSt)
    (h : Desert.body hypot f scale_height ds domain record_every step_i ls = .cont ls') :
    ¬ Desert.out_of_domain domain ls'.state
    ∧ ls'.points = (if step_i % record_every = 0
        then ls.points ++ [(ls'.state.x, ls'.state.y)] else ls.points) := by
  simp only [Desert.body] at h
  split_ifs at h with h1 h2 h3 h4 <;> cases h <;>
    constructor <;> simp_all [Desert.out_of_domain]


lemma desert_loop_zero (hypot : ℚ → ℚ → ℚ) (f : ℚ → RayState → RayState)
    (scale_height ds : ℚ) (domain : DomainBounds) (record_every step_i : ℕ)
    (ls : Desert.LoopSt) :
    Desert.loop hypot f scale_height ds domain record_every 0 step_i ls = ls := rfl

lemma desert_loop_succ_of_stop (hypot : ℚ → ℚ → ℚ) (f : ℚ → RayState → RayState)
    (scale_height ds : ℚ) (domain : DomainBounds) (record_every : ℕ)
    (fuel step_i : ℕ) (ls ls' : Desert.LoopSt)
    (h : Desert.body hypot f scale_height ds domain record_every step_i ls = .stop ls') :
    Desert.loop hypot f scale_height ds domain record_every (fuel + 1) step_i ls = ls' := by
  have e : Desert.loop hypot f scale_height ds domain record_every (fuel + 1) step_i ls
      = (match Desert.body hypot f scale_height ds domain record_every step_i ls with
         | .stop ls' => ls'
         | .cont ls' =>
            Desert.loop hypot f scale_height ds domain record_every fuel (step_i + 1) ls') := rfl
  rw [e, h]

lemma desert_loop_succ_of_cont (hypot : ℚ → ℚ → ℚ) (f : ℚ → RayState → RayState)
    (scale_height ds : ℚ) (domain : DomainBounds) (record_every : ℕ)
    (fuel step_i : ℕ) (ls ls' : Desert.LoopSt)
    (h : Desert.body hypot f scale_height ds domain record_every step_i ls = .cont ls') :
    Desert.loop hypot f scale_height ds domain record_every (fuel + 1) step_i ls
      = Desert.loop hypot f scale_height ds domain record_every fuel (step_i + 1) ls' := by
  have e : Desert.loop hypot f scale_height ds domain record_every (fuel + 1) step_i ls
      = (match Desert.body hypot f scale_height ds domain record_every step_i ls with
         | .stop ls' => ls'
         | .cont ls' =>
            Desert.loop hypot f scale_height ds domain record_every fuel (step_i + 1) ls') := rfl
  rw [e, h]

/-- The ocean termination condition: sub-surface exit or side/top exit
(`integrator.py` lines 87–91). -/
def Ocean.out_of_domain (domain : DomainBounds) (st : RayState) : Prop :=
  st.y < domain.y_min ∨ st.x < domain.x_min ∨ st.x > domain.x_max ∨ st.y > domain.y_max

instance (domain : DomainBounds) (st : RayState) :
    Decidable (Ocean.out_of_domain domain st) := by
  unfold Ocean.out_of_domain; infer_instance

/-- The point the ocean loop records when it terminates at a given state: the
height is clamped to `≥ 0` exactly on the sub-surface exit. -/
def Ocean.exit_point (domain : DomainBounds) (st : RayState) : ℚ × ℚ :=
  (st.x, if st.y < domain.y_min then max st.y 0 else st.y)

lemma ocean_body_stop_char (hypot : ℚ → ℚ → ℚ) (f : ℚ → RayState → RayState)
    (ds : ℚ) (domain : DomainBounds) (record_every step_i : ℕ) (ls ls' : Ocean.LoopSt)
    (h : Ocean.body hypot f ds domain record_every step_i ls = .stop ls') :
    ls'.points = ls.points ++ [Ocean.exit_point domain ls'.state]
    ∧ Ocean.out_of_domain domain ls'.state := by
  simp only [Ocean.body] at h
  split_ifs at h <;> cases h <;>
    refine ⟨by simp [Ocean.exit_point, *], ?_⟩ <;>
    simp only [Ocean.out_of_domain] <;> tauto

lemma ocean_body_cont_char (hypot : ℚ → ℚ → ℚ) (f : ℚ → RayState → RayState)
    (ds : ℚ) (domain : DomainBounds) (record_every step_i : ℕ) (ls ls' : Ocean.LoopSt)
    (h : Ocean.body hypot f ds domain record_every step_i ls = .cont ls') :
    ¬ Ocean.out_of_domain domain ls'.state
    ∧ ls'.points = (if step_i % record_every = 0
        then ls.points ++ [(ls'.state.x, ls'.state.y)] else ls.points) := by
  simp only [Ocean.body] at h
  split_ifs at h with h1 h2 h3 <;> cases h <;>
    constructor <;> simp_all [Ocean.out_of_domain]

lemma ocean_loop_zero (hypot : ℚ → ℚ → ℚ) (f : ℚ → RayState → RayState)
    (ds : ℚ) (domain : DomainBounds) (record_every step_i : ℕ) (ls : Ocean.LoopSt) :
    Ocean.loop hypot f ds domain record_every 0 step_i ls = ls := rfl

lemma ocean_loop_succ_of_stop (hypot : ℚ → ℚ → ℚ) (f : ℚ → RayState → RayState)
    (ds : ℚ) (domain : DomainBounds) (record_every : ℕ) (fuel step_i : ℕ)
    (ls ls' : Ocean.LoopSt)
    (h : Ocean.body hypot f ds domain record_every step_i ls = .stop ls') :
    Ocean.loop hypot f ds domain record_every (fuel + 1) step_i ls = ls' := by
  have e : Ocean.loop hypot f ds domain record_every (fuel + 1) step_i ls
      = (match Ocean.body hypot f ds domain record_every step_i ls with
         | .stop ls' => ls'
         | .cont ls' => Ocean.loop hypot f ds domain record_every fuel (step_i + 1) ls') := rfl
  rw [e, h]

lemma ocean_loop_succ_of_cont (hypot : ℚ → ℚ → ℚ) (f : ℚ → RayState → RayState)
    (ds : ℚ) (domain : DomainBounds) (record_every : ℕ) (fuel step_i : ℕ)
    (ls ls' : Ocean.LoopSt)
    (h : Ocean.body hypot f ds domain record_every step_i ls = .cont ls') :
    Ocean.loop hypot f ds domain record_every (fuel + 1) step_i ls
      = Ocean.loop hypot f ds domain record_every fuel (step_i + 1) ls' := by
  have e : Ocean.loop hypot f ds domain record_every (fuel + 1) step_i ls
      = (match Ocean.body hypot f ds domain record_every step_i ls with
         | .stop ls' => ls'
         | .cont ls' => Ocean.loop hypot f ds domain record_every fuel (step_i + 1) ls') := rfl
  rw [e, h]

lemma desert_loop_points_mono (hypot : ℚ → ℚ → ℚ) (f : ℚ → RayState → RayState)
    (scale_height ds : ℚ) (domain : DomainBounds) (record_every : ℕ) :
    ∀ (fuel step_i : ℕ) (ls : Desert.LoopSt), ∃ t,
      (Desert.loop hypot f scale_height ds domain record_every fuel step_i ls).points
        = ls.points ++ t := by
  intro fuel
  induction fuel with
  | zero =>
    intro step_i ls
    exact ⟨[], by rw [desert_loop_zero, List.append_nil]⟩
  | succ n ih =>
    intro step_i ls
    cases h : Desert.body hypot f scale_height ds domain record_every step_i ls with
    | stop ls' =>
      rw [desert_loop_succ_of_stop hypot f scale_height ds domain record_every n step_i ls ls' h]
      exact ⟨[(ls'.state.x, ls'.state.y)],
        (desert_body_stop_char hypot f scale_height ds domain record_every step_i ls ls' h).1⟩
    | cont ls' =>
      rw [desert_loop_succ_of_cont hypot f scale_height ds domain record_every n step_i ls ls' h]
      obtain ⟨t, ht⟩ := ih (step_i + 1) ls'
      have hp := (desert_body_cont_char hypot f scale_height ds domain record_every
        step_i ls ls' h).2
      by_cases hr : step_i % record_every = 0
      · rw [if_pos hr] at hp
        exact ⟨[(ls'.state.x, ls'.state.y)] ++ t, by rw [ht, hp, List.append_assoc]⟩
      · rw [if_neg hr] at hp
        exact ⟨t, by rw [ht, hp]⟩

lemma ocean_loop_points_mono (hypot : ℚ → ℚ → ℚ) (f : ℚ → RayState → RayState)
    (ds : ℚ) (domain : DomainBounds) (record_every : ℕ) :
    ∀ (fuel step_i : ℕ) (ls : Ocean.LoopSt), ∃ t,
      (Ocean.loop hypot f ds domain record_every fuel step_i ls).points
        = ls.points ++ t := by
  intro fuel
  induction fuel with
  | zero =>
    intro step_i ls
    exact ⟨[], by rw [ocean_loop_zero, List.append_nil]⟩
  | succ n ih =>
    intro step_i ls
    cases h : Ocean.body hypot f ds domain record_every step_i ls with
    | stop ls' =>
      rw [ocean_loop_succ_of_stop hypot f ds domain record_every n step_i ls ls' h]
      exact ⟨[Ocean.exit_point domain ls'.state],
        (ocean_body_stop_char hypot f ds domain record_every step_i ls ls' h).1⟩
    | cont ls' =>
      rw [ocean_loop_succ_of_cont hypot f ds domain record_every n step_i ls ls' h]
      obtain ⟨t, ht⟩ := ih (step_i + 1) ls'
      have hp := (ocean_body_cont_char hypot f ds domain record_every step_i ls ls' h).2
      by_cases hr : step_i % record_every = 0
      · rw [if_pos hr] at hp
        exact ⟨[(ls'.state.x, ls'.state.y)] ++ t, by rw [ht, hp, List.append_assoc]⟩
      · rw [if_neg hr] at hp
        exact ⟨t, by rw [ht, hp]⟩

lemma desert_loop_exit_last (hypot : ℚ → ℚ → ℚ) (f : ℚ → RayState → RayState)
    (scale_height ds : ℚ) (domain : DomainBounds) (record_every : ℕ) :
    ∀ (fuel step_i : ℕ) (ls : Desert.LoopSt),
      (¬ Desert.out_of_domain domain ls.state
        ∨ ls.points.getLast? = some (ls.state.x, ls.state.y)) →
      (¬ Desert.out_of_domain domain
          (Desert.loop hypot f scale_height ds domain record_every fuel step_i ls).state
        ∨ (Desert.loop hypot f scale_height ds domain record_every fuel step_i ls).points.getLast?
            = some ((Desert.loop hypot f scale_height ds domain record_every fuel step_i ls).state.x,
                    (Desert.loop hypot f scale_height ds domain record_every fuel step_i ls).state.y)) := by
  intro fuel
  induction fuel with
  | zero =>
    intro step_i ls hinv
    rw [desert_loop_zero]
    exact hinv
  | succ n ih =>
    intro step_i ls hinv
    cases h : Desert.body hypot f scale_height ds domain record_every step_i ls with
    | stop ls' =>
      rw [desert_loop_succ_of_stop hypot f scale_height ds domain record_every n step_i ls ls' h]
      right
      rw [(desert_body_stop_char hypot f scale_height ds domain record_every step_i ls ls' h).1,
        List.getLast?_concat]
    | cont ls' =>
      rw [desert_loop_succ_of_cont hypot f scale_height ds domain record_every n step_i ls ls' h]
      exact ih (step_i + 1) ls'
        (Or.inl (desert_body_cont_char hypot f scale_height ds domain record_every
          step_i ls ls' h).1)

lemma ocean_loop_exit_last (hypot : ℚ → ℚ → ℚ) (f : ℚ → RayState → RayState)
    (ds : ℚ) (domain : DomainBounds) (record_every : ℕ) :
    ∀ (fuel step_i : ℕ) (ls : Ocean.LoopSt),
      (¬ Ocean.out_of_domain domain ls.state
        ∨ ls.points.getLast? = some (Ocean.exit_point domain ls.state)) →
      (¬ Ocean.out_of_domain domain
          (Ocean.loop hypot f ds domain record_every fuel step_i ls).state
        ∨ (Ocean.loop hypot f ds domain record_every fuel step_i ls).points.getLast?
            = some (Ocean.exit_point domain
                (Ocean.loop hypot f ds domain record_every fuel step_i ls).state)) := by
  intro fuel
  induction fuel with
  | zero =>
    intro step_i ls hinv
    rw [ocean_loop_zero]
    exact hinv
  | succ n ih =>
    intro step_i ls hinv
    cases h : Ocean.body hypot f ds domain record_every step_i ls with
    | stop ls' =>
      rw [ocean_loop_succ_of_stop hypot f ds domain record_every n step_i ls ls' h]
      right
      rw [(ocean_body_stop_char hypot f ds domain record_every step_i ls ls' h).1,
        List.getLast?_concat]
    | cont ls' =>
      rw [ocean_loop_succ_of_cont hypot f ds domain record_every n step_i ls ls' h]
      exact ih (step_i + 1) ls'
        (Or.inl (ocean_body_cont_char hypot f ds domain record_every step_i ls ls' h).1)

lemma Ocean.body_get_state (hypot : ℚ → ℚ → ℚ) (f : ℚ → RayState → RayState)
    (ds : ℚ) (domain : DomainBounds) (record_every step_i : ℕ) (ls : LoopSt) :
    ((Ocean.body hypot f ds domain record_every step_i ls).get).state
      = _renorm hypot (rk4_step f ls.s ls.state ds) := by
  simp only [Ocean.body]
  split_ifs <;> simp [StepOut.get]

/-- C4: in the ocean `trace_ray`, a completed step whose resulting height is
below `domain.y_min` terminates the ray immediately — the remaining loop
result does not depend on the remaining step budget, no further integration
step is taken — and the point then appended (the final recorded point) has its
height clamped to `max y 0 ≥ 0`, while the last integration state is kept
unclamped. -/
theorem ocean_surface_exit_terminates (hypot : ℚ → ℚ → ℚ)
    (f : ℚ → RayState → RayState) (ds : ℚ) (domain : DomainBounds)
    (record_every : ℕ) (fuel step_i : ℕ) (ls : Ocean.LoopSt)
    (hy : (_renorm hypot (rk4_step f ls.s ls.state ds)).y < domain.y_min) :
    (∀ fuel' : ℕ,
      Ocean.loop hypot f ds domain record_every (fuel' + 1) step_i ls
        = Ocean.loop hypot f ds domain record_every (fuel + 1) step_i ls)
    ∧ (Ocean.loop hypot f ds domain record_every (fuel + 1) step_i ls).points
        = ls.points ++ [((_renorm hypot (rk4_step f ls.s ls.state ds)).x,
            max (_renorm hypot (rk4_step f ls.s ls.state ds)).y 0)]
    ∧ (0 : ℚ) ≤ max (_renorm hypot (rk4_step f ls.s ls.state ds)).y 0
    ∧ (Ocean.loop hypot f ds domain record_every (fuel + 1) step_i ls).state
        = _renorm hypot (rk4_step f ls.s ls.state ds) := by
  cases hb : Ocean.body hypot f ds domain record_every step_i ls with
  | cont ls' =>
    exfalso
    have h1 := (ocean_body_cont_char hypot f ds domain record_every step_i ls ls' hb).1
    have h2 := Ocean.body_get_state hypot f ds domain record_every step_i ls
    rw [hb] at h2
    exact h1 (Or.inl (by rw [StepOut.get] at h2; rw [h2]; exact hy))
  | stop ls' =>
    have h2 := Ocean.body_get_state hypot f ds domain record_every step_i ls
    rw [hb, StepOut.get] at h2
    have hpts := (ocean_body_stop_char hypot f ds domain record_every step_i ls ls' hb).1
    refine ⟨?_, ?_, le_max_right _ _, ?_⟩
    · intro fuel'
      rw [ocean_loop_succ_of_stop hypot f ds domain record_every fuel' step_i ls ls' hb,
        ocean_loop_succ_of_stop hypot f ds domain record_every fuel step_i ls ls' hb]
    · rw [ocean_loop_succ_of_stop hypot f ds domain record_every fuel step_i ls ls' hb,
        hpts, h2]
      simp [Ocean.exit_point, hy]
    · rw [ocean_loop_succ_of_stop hypot f ds domain record_every fuel step_i ls ls' hb, h2]

/-- C4 witness: the termination applied to a concrete ray one step above the
surface heading straight down (`demoFns`, `demoOceanAtm`). -/
theorem ocean_surface_exit_terminates_witness :
    (Ocean.loop demoFns.hypot (Ocean.ray_ode demoFns.exp demoOceanAtm) 1
        ⟨0, 100, 0, 100⟩ 1 (4 + 1) 0
        ⟨⟨5, 1/2, 0, -1⟩, [(5, 1/2)], -1, 0, 1/2, 1/2, 0⟩).points
      = [(5, 1/2)] ++ [((_renorm demoFns.hypot (rk4_step
            (Ocean.ray_ode demoFns.exp demoOceanAtm) 0 ⟨5, 1/2, 0, -1⟩ 1)).x,
          max (_renorm demoFns.hypot (rk4_step
            (Ocean.ray_ode demoFns.exp demoOceanAtm) 0 ⟨5, 1/2, 0, -1⟩ 1)).y 0)]
    ∧ (0 : ℚ) ≤ max (_renorm demoFns.hypot (rk4_step
          (Ocean.ray_ode demoFns.exp demoOceanAtm) 0 ⟨5, 1/2, 0, -1⟩ 1)).y 0 := by
  have h := ocean_surface_exit_terminates demoFns.hypot
    (Ocean.ray_ode demoFns.exp demoOceanAtm) 1 ⟨0, 100, 0, 100⟩ 1 4 0
    ⟨⟨5, 1/2, 0, -1⟩, [(5, 1/2)], -1, 0, 1/2, 1/2, 0⟩
    (by norm_num [_renorm, rk4_step, rk4_trial, Ocean.ray_ode, OceanAtmosphere.n,
      OceanAtmosphere.dn_dy, demoFns, demoOceanAtm])
  exact ⟨h.2.1, h.2.2.1⟩

lemma Desert.body_clamped_state (hypot : ℚ → ℚ → ℚ) (f : ℚ → RayState → RayState)
    (scale_height ds : ℚ) (domain : DomainBounds) (record_every step_i : ℕ)
    (ls : LoopSt)
    (hy : (_renorm hypot (rk4_step f ls.s ls.state
        (Desert.local_step scale_height ds ls.state.y))).y < domain.y_min) :
    ((Desert.body hypot f scale_height ds domain record_every step_i ls).get).state
      = { _renorm hypot (rk4_step f ls.s ls.state
            (Desert.local_step scale_height ds ls.state.y)) with
          y := domain.y_min + 1/1000,
          vy := |(_renorm hypot (rk4_step f ls.s ls.state
            (Desert.local_step scale_height ds ls.state.y))).vy| } := by
  simp only [Desert.body]
  rw [if_pos hy]
  split_ifs <;> simp [StepOut.get]

lemma Desert.body_clamped_stop_iff (hypot : ℚ → ℚ → ℚ) (f : ℚ → RayState → RayState)
    (scale_height ds : ℚ) (domain : DomainBounds) (record_every step_i : ℕ)
    (ls : LoopSt)
    (hy : (_renorm hypot (rk4_step f ls.s ls.state
        (Desert.local_step scale_height ds ls.state.y))).y < domain.y_min) :
    ((Desert.body hypot f scale_height ds domain record_every step_i ls).isStop = true
      ↔ ((_renorm hypot (rk4_step f ls.s ls.state
            (Desert.local_step scale_height ds ls.state.y))).x < domain.x_min
         ∨ (_renorm hypot (rk4_step f ls.s ls.state
            (Desert.local_step scale_height ds ls.state.y))).x > domain.x_max
         ∨ domain.y_min + 1/1000 > domain.y_max)) := by
  simp only [Desert.body]
  rw [if_pos hy]
  split_ifs with hc <;> simp_all [StepOut.isStop]

/-- C3 (amended): in the desert loop, whenever a completed step leaves the
height below `domain.y_min`, the continuing state has its height set to
`domain.y_min + 0.001` and its vertical velocity component replaced by its
absolute value — hence nonnegative, and positive whenever the post-step
vertical velocity was nonzero (but 0, not positive, when it was 0) — with the
horizontal position unchanged; and this event never by itself terminates the
ray: the iteration breaks exactly when the post-clamp state violates the
horizontal bounds or the upper height bound, and otherwise the loop continues
whenever budget remains. -/
theorem desert_ground_clamp_nonterminating (hypot : ℚ → ℚ → ℚ)
    (f : ℚ → RayState → RayState) (scale_height ds : ℚ) (domain : DomainBounds)
    (record_every step_i : ℕ) (ls : Desert.LoopSt)
    (hy : (_renorm hypot (rk4_step f ls.s ls.state
        (Desert.local_step scale_height ds ls.state.y))).y < domain.y_min) :
    ((Desert.body hypot f scale_height ds domain record_every step_i ls).get).state.y
        = domain.y_min + 1/1000
    ∧ ((Desert.body hypot f scale_height ds domain record_every step_i ls).get).state.vy
        = |(_renorm hypot (rk4_step f ls.s ls.state
            (Desert.local_step scale_height ds ls.state.y))).vy|
    ∧ 0 ≤ ((Desert.body hypot f scale_height ds domain record_every step_i ls).get).state.vy
    ∧ ((_renorm hypot (rk4_step f ls.s ls.state
          (Desert.local_step scale_height ds ls.state.y))).vy ≠ 0 →
        0 < ((Desert.body hypot f scale_height ds domain record_every step_i ls).get).state.vy)
    ∧ ((Desert.body hypot f scale_height ds domain record_every step_i ls).get).state.x
        = (_renorm hypot (rk4_step f ls.s ls.state
            (Desert.local_step scale_height ds ls.state.y))).x
    ∧ ((Desert.body hypot f scale_height ds domain record_every step_i ls).isStop = true
        ↔ ((_renorm hypot (rk4_step f ls.s ls.state
              (Desert.local_step scale_height ds ls.state.y))).x < domain.x_min
           ∨ (_renorm hypot (rk4_step f ls.s ls.state
              (Desert.local_step scale_height ds ls.state.y))).x > domain.x_max
           ∨ domain.y_min + 1/1000 > domain.y_max))
    ∧ (∀ (fuel : ℕ) (ls' : Desert.LoopSt),
        Desert.body hypot f scale_height ds domain record_every step_i ls = .cont ls' →
        Desert.loop hypot f scale_height ds domain record_every (fuel + 1) step_i ls
          = Desert.loop hypot f scale_height ds domain record_every fuel (step_i + 1) ls') := by
  have hstate := Desert.body_clamped_state hypot f scale_height ds domain record_every
    step_i ls hy
  refine ⟨?_, ?_, ?_, ?_, ?_, ?_, ?_⟩
  · rw [hstate]
  · rw [hstate]
  · rw [hstate]; exact abs_nonneg _
  · intro h0; rw [hstate]; exact abs_pos.mpr h0
  · rw [hstate]
  · exact Desert.body_clamped_stop_iff hypot f scale_height ds domain record_every
      step_i ls hy
  · intro fuel ls' hc
    exact desert_loop_succ_of_cont hypot f scale_height ds domain record_every
      fuel step_i ls ls' hc

/-- Concrete `math` primitives with `cos θ = 1`, `sin θ = 0` (a horizontal
launch direction), used by the desert concrete instances. -/
def demoFns2 : MathFns :=
  { exp := fun _ => 1, hypot := fun _ _ => 1, cos := fun _ => 1,
    sin := fun _ => 0, log := fun _ => 1 }

/-- A desert atmosphere with `delta_n = 0`: the index gradient vanishes, so
`ray_ode` reduces to straight-line motion (a legitimate parameter choice of
the dataclass). -/
def demoDesertAtm0 : DesertAtmosphere :=
  { n_base := 1, delta_n := 0, scale_height := 2, ground_temp := 65, air_temp := 28 }

/-- C3 counterexample: the claim says the clamp forces the vertical velocity
component positive, but the code takes an absolute value.  On the very first
`trace_ray` iteration of a horizontal ray (`vy = 0`) launched below the
ground with a zero-gradient atmosphere, the step leaves the height below
`y_min = 0`, yet the post-clamp vertical velocity is `|0| = 0`, not
positive. -/
theorem desert_clamp_vy_not_forced_positive :
    (_renorm demoFns2.hypot (rk4_step (Desert.ray_ode demoFns2.exp demoDesertAtm0 0) 0
        ⟨0, -1, 1, 0⟩ (Desert.local_step demoDesertAtm0.scale_height 1 (-1)))).y < (0 : ℚ)
    ∧ ¬ (0 < ((Desert.body demoFns2.hypot (Desert.ray_ode demoFns2.exp demoDesertAtm0 0)
          demoDesertAtm0.scale_height 1 ⟨0, 3000, 0, 200⟩ 8 0
          ⟨⟨0, -1, 1, 0⟩, [(0, -1)], false, 0, 0, 0⟩).get).state.vy) := by
  constructor <;>
    norm_num [Desert.body, Desert.local_step, Desert.ray_ode, DesertAtmosphere.n,
      DesertAtmosphere.dn_dy, _renorm, rk4_step, rk4_trial, StepOut.get,
      demoFns2, demoDesertAtm0]

/-- C3 witness: the amended clamp behaviour applied to a concrete downward ray
driven below the ground — height reset to `0 + 0.001`, vertical velocity
`|-1| = 1 > 0`. -/
theorem desert_ground_clamp_nonterminating_witness :
    ((Desert.body demoFns.hypot (Desert.ray_ode demoFns.exp demoDesertAtm0 0)
        demoDesertAtm0.scale_height 1 ⟨0, 3000, 0, 200⟩ 8 0
        ⟨⟨0, -1, 0, -1⟩, [(0, -1)], false, 0, -1, 0⟩).get).state.y = 0 + 1/1000
    ∧ 0 < ((Desert.body demoFns.hypot (Desert.ray_ode demoFns.exp demoDesertAtm0 0)
        demoDesertAtm0.scale_height 1 ⟨0, 3000, 0, 200⟩ 8 0
        ⟨⟨0, -1, 0, -1⟩, [(0, -1)], false, 0, -1, 0⟩).get).state.vy := by
  have h := desert_ground_clamp_nonterminating demoFns.hypot
    (Desert.ray_ode demoFns.exp demoDesertAtm0 0) demoDesertAtm0.scale_height 1
    ⟨0, 3000, 0, 200⟩ 8 0 ⟨⟨0, -1, 0, -1⟩, [(0, -1)], false, 0, -1, 0⟩
    (by norm_num [_renorm, rk4_step, rk4_trial, Desert.local_step, Desert.ray_ode,
      DesertAtmosphere.n, DesertAtmosphere.dn_dy, demoFns, demoDesertAtm0])
  exact ⟨h.1, h.2.2.2.1 (by norm_num [_renorm, rk4_step, rk4_trial, Desert.local_step,
    Desert.ray_ode, DesertAtmosphere.n, DesertAtmosphere.dn_dy, demoFns, demoDesertAtm0])⟩

/-- C6 counterexample: the claim says the point sequence always ends with the
final point of the ray, including when the step budget is exhausted.  A
2-step desert trace (zero-gradient atmosphere, ray descending from height 10)
with decimation 2 records steps 0 only; the budget then runs out at height 8,
so the recorded sequence ends at height 9 while `final_y = 8`. -/
theorem desert_trace_last_point_not_final :
    (Desert.trace_ray demoFns demoDesertAtm0 0 10 0 1 2
        ⟨0, 3000, 0, 200⟩ 0 2).points.getLast?.map Prod.snd
      ≠ some (Desert.trace_ray demoFns demoDesertAtm0 0 10 0 1 2
        ⟨0, 3000, 0, 200⟩ 0 2).final_y := by
  have h1 : Desert.body demoFns.hypot (Desert.ray_ode demoFns.exp demoDesertAtm0 0)
      demoDesertAtm0.scale_height 1 ⟨0, 3000, 0, 200⟩ 2 0
      ⟨⟨0, 10, demoFns.cos 0, demoFns.sin 0⟩, [(0, 10)], false, 0, demoFns.sin 0, 0⟩
      = .cont ⟨⟨0, 9, 0, -1⟩, [(0, 10), (0, 9)], false, 0, -1, 1⟩ := by
    norm_num [Desert.body, Desert.local_step, Desert.ray_ode, DesertAtmosphere.n,
      DesertAtmosphere.dn_dy, _renorm, rk4_step, rk4_trial, demoFns, demoDesertAtm0]
  have h2 : Desert.body demoFns.hypot (Desert.ray_ode demoFns.exp demoDesertAtm0 0)
      demoDesertAtm0.scale_height 1 ⟨0, 3000, 0, 200⟩ 2 1
      ⟨⟨0, 9, 0, -1⟩, [(0, 10), (0, 9)], false, 0, -1, 1⟩
      = .cont ⟨⟨0, 8, 0, -1⟩, [(0, 10), (0, 9)], false, 0, -1, 2⟩ := by
    norm_num [Desert.body, Desert.local_step, Desert.ray_ode, DesertAtmosphere.n,
      DesertAtmosphere.dn_dy, _renorm, rk4_step, rk4_trial, demoFns, demoDesertAtm0]
  have hl : Desert.loop demoFns.hypot (Desert.ray_ode demoFns.exp demoDesertAtm0 0)
      demoDesertAtm0.scale_height 1 ⟨0, 3000, 0, 200⟩ 2 2 0
      ⟨⟨0, 10, demoFns.cos 0, demoFns.sin 0⟩, [(0, 10)], false, 0, demoFns.sin 0, 0⟩
      = ⟨⟨0, 8, 0, -1⟩, [(0, 10), (0, 9)], false, 0, -1, 2⟩ := by
    have e1 : Desert.loop demoFns.hypot (Desert.ray_ode demoFns.exp demoDesertAtm0 0)
        demoDesertAtm0.scale_height 1 ⟨0, 3000, 0, 200⟩ 2 2 0
        ⟨⟨0, 10, demoFns.cos 0, demoFns.sin 0⟩, [(0, 10)], false, 0, demoFns.sin 0, 0⟩
        = Desert.loop demoFns.hypot (Desert.ray_ode demoFns.exp demoDesertAtm0 0)
        demoDesertAtm0.scale_height 1 ⟨0, 3000, 0, 200⟩ 2 1 1
        ⟨⟨0, 9, 0, -1⟩, [(0, 10), (0, 9)], false, 0, -1, 1⟩ :=
      desert_loop_succ_of_cont demoFns.hypot (Desert.ray_ode demoFns.exp demoDesertAtm0 0)
        demoDesertAtm0.scale_height 1 ⟨0, 3000, 0, 200⟩ 2 1 0
        ⟨⟨0, 10, demoFns.cos 0, demoFns.sin 0⟩, [(0, 10)], false, 0, demoFns.sin 0, 0⟩
        ⟨⟨0, 9, 0, -1⟩, [(0, 10), (0, 9)], false, 0, -1, 1⟩ h1
    have e2 : Desert.loop demoFns.hypot (Desert.ray_ode demoFns.exp demoDesertAtm0 0)
        demoDesertAtm0.scale_height 1 ⟨0, 3000, 0, 200⟩ 2 1 1
        ⟨⟨0, 9, 0, -1⟩, [(0, 10), (0, 9)], false, 0, -1, 1⟩
        = Desert.loop demoFns.hypot (Desert.ray_ode demoFns.exp demoDesertAtm0 0)
        demoDesertAtm0.scale_height 1 ⟨0, 3000, 0, 200⟩ 2 0 2
        ⟨⟨0, 8, 0, -1⟩, [(0, 10), (0, 9)], false, 0, -1, 2⟩ :=
      desert_loop_succ_of_cont demoFns.hypot (Desert.ray_ode demoFns.exp demoDesertAtm0 0)
        demoDesertAtm0.scale_height 1 ⟨0, 3000, 0, 200⟩ 2 0 1
        ⟨⟨0, 9, 0, -1⟩, [(0, 10), (0, 9)], false, 0, -1, 1⟩
        ⟨⟨0, 8, 0, -1⟩, [(0, 10), (0, 9)], false, 0, -1, 2⟩ h2
    rw [e1, e2, desert_loop_zero]
  simp only [Desert.trace_ray, hl]
  norm_num

/-- C6 (amended): in both variants the returned point sequence starts with the
launch point; a continuing completed step is recorded exactly when its index
is a multiple of the decimation factor; a terminating step always appends the
exit point (for the ocean variant with its height clamped to `≥ 0` on a
sub-surface exit); and whenever the trace's final state is out of the domain
(in particular on every domain-exit termination — for the ocean variant
assuming the launch point was inside the domain) the sequence ends with the
final point.  When the step budget is exhausted with the final state inside
the domain the last recorded point may instead be an earlier decimated step. -/
theorem trace_points_sampling :
    (∀ (μ : MathFns) (atm : DesertAtmosphere) (x0 y0 theta0 ds : ℚ)
       (max_steps : ℕ) (domain : DomainBounds) (phase : ℚ) (record_every : ℕ),
       (Desert.trace_ray μ atm x0 y0 theta0 ds max_steps domain phase record_every).points.head?
         = some (x0, y0))
    ∧ (∀ (μ : MathFns) (atm : OceanAtmosphere) (x0 y0 theta0 ds : ℚ)
       (max_steps : ℕ) (domain : DomainBounds) (record_every : ℕ),
       (Ocean.trace_ray μ atm x0 y0 theta0 ds max_steps domain record_every).points.head?
         = some (x0, y0))
    ∧ (∀ (hypot : ℚ → ℚ → ℚ) (f : ℚ → RayState → RayState) (scale_height ds : ℚ)
       (domain : DomainBounds) (record_every step_i : ℕ) (ls ls' : Desert.LoopSt),
       Desert.body hypot f scale_height ds domain record_every step_i ls = .cont ls' →
       ls'.points = (if step_i % record_every = 0
         then ls.points ++ [(ls'.state.x, ls'.state.y)] else ls.points))
    ∧ (∀ (hypot : ℚ → ℚ → ℚ) (f : ℚ → RayState → RayState) (ds : ℚ)
       (domain : DomainBounds) (record_every step_i : ℕ) (ls ls' : Ocean.LoopSt),
       Ocean.body hypot f ds domain record_every step_i ls = .cont ls' →
       ls'.points = (if step_i % record_every = 0
         then ls.points ++ [(ls'.state.x, ls'.state.y)] else ls.points))
    ∧ (∀ (hypot : ℚ → ℚ → ℚ) (f : ℚ → RayState → RayState) (scale_height ds : ℚ)
       (domain : DomainBounds) (record_every step_i : ℕ) (ls ls' : Desert.LoopSt),
       Desert.body hypot f scale_height ds domain record_every step_i ls = .stop ls' →
       ls'.points = ls.points ++ [(ls'.state.x, ls'.state.y)])
    ∧ (∀ (hypot : ℚ → ℚ → ℚ) (f : ℚ → RayState → RayState) (ds : ℚ)
       (domain : DomainBounds) (record_every step_i : ℕ) (ls ls' : Ocean.LoopSt),
       Ocean.body hypot f ds domain record_every step_i ls = .stop ls' →
       ls'.points = ls.points ++ [Ocean.exit_point domain ls'.state])
    ∧ (∀ (μ : MathFns) (atm : DesertAtmosphere) (x0 y0 theta0 ds : ℚ)
       (max_steps : ℕ) (domain : DomainBounds) (phase : ℚ) (record_every : ℕ),
       Desert.out_of_domain domain
         (Desert.loop μ.hypot (Desert.ray_ode μ.exp atm phase) atm.scale_height ds
           domain record_every max_steps 0
           ⟨⟨x0, y0, μ.cos theta0, μ.sin theta0⟩, [(x0, y0)], false, 0, μ.sin theta0, 0⟩).state →
       (Desert.trace_ray μ atm x0 y0 theta0 ds max_steps domain phase record_every).points.getLast?
         = some ((Desert.loop μ.hypot (Desert.ray_ode μ.exp atm phase) atm.scale_height ds
             domain record_every max_steps 0
             ⟨⟨x0, y0, μ.cos theta0, μ.sin theta0⟩, [(x0, y0)], false, 0, μ.sin theta0, 0⟩).state.x,
           (Desert.loop μ.hypot (Desert.ray_ode μ.exp atm phase) atm.scale_height ds
             domain record_every max_steps 0
             ⟨⟨x0, y0, μ.cos theta0, μ.sin theta0⟩, [(x0, y0)], false, 0, μ.sin theta0, 0⟩).state.y))
    ∧ (∀ (μ : MathFns) (atm : OceanAtmosphere) (x0 y0 theta0 ds : ℚ)
       (max_steps : ℕ) (domain : DomainBounds) (record_every : ℕ),
       ¬ Ocean.out_of_domain domain ⟨x0, y0, μ.cos theta0, μ.sin theta0⟩ →
       Ocean.out_of_domain domain
         (Ocean.loop μ.hypot (Ocean.ray_ode μ.exp atm) ds domain record_every max_steps 0
           ⟨⟨x0, y0, μ.cos theta0, μ.sin theta0⟩, [(x0, y0)], μ.sin theta0, 0, y0, y0, 0⟩).state →
       (Ocean.trace_ray μ atm x0 y0 theta0 ds max_steps domain record_every).points.getLast?
         = some (Ocean.exit_point domain
             (Ocean.loop μ.hypot (Ocean.ray_ode μ.exp atm) ds domain record_every max_steps 0
               ⟨⟨x0, y0, μ.cos theta0, μ.sin theta0⟩, [(x0, y0)], μ.sin theta0, 0, y0, y0, 0⟩).state)) := by
  refine ⟨?_, ?_, ?_, ?_, ?_, ?_, ?_, ?_⟩
  · intro μ atm x0 y0 theta0 ds max_steps domain phase record_every
    obtain ⟨t, ht⟩ := desert_loop_points_mono μ.hypot (Desert.ray_ode μ.exp atm phase)
      atm.scale_height ds domain record_every max_steps 0
      ⟨⟨x0, y0, μ.cos theta0, μ.sin theta0⟩, [(x0, y0)], false, 0, μ.sin theta0, 0⟩
    simp only [Desert.trace_ray]
    rw [ht]
    rfl
  · intro μ atm x0 y0 theta0 ds max_steps domain record_every
    obtain ⟨t, ht⟩ := ocean_loop_points_mono μ.hypot (Ocean.ray_ode μ.exp atm)
      ds domain record_every max_steps 0
      ⟨⟨x0, y0, μ.cos theta0, μ.sin theta0⟩, [(x0, y0)], μ.sin theta0, 0, y0, y0, 0⟩
    simp only [Ocean.trace_ray]
    rw [ht]
    rfl
  · intro hypot f scale_height ds domain record_every step_i ls ls' h
    exact (desert_body_cont_char hypot f scale_height ds domain record_every
      step_i ls ls' h).2
  · intro hypot f ds domain record_every step_i ls ls' h
    exact (ocean_body_cont_char hypot f ds domain record_every step_i ls ls' h).2
  · intro hypot f scale_height ds domain record_every step_i ls ls' h
    exact (desert_body_stop_char hypot f scale_height ds domain record_every
      step_i ls ls' h).1
  · intro hypot f ds domain record_every step_i ls ls' h
    exact (ocean_body_stop_char hypot f ds domain record_every step_i ls ls' h).1
  · intro μ atm x0 y0 theta0 ds max_steps domain phase record_every hout
    have hinv := desert_loop_exit_last μ.hypot (Desert.ray_ode μ.exp atm phase)
      atm.scale_height ds domain record_every max_steps 0
      ⟨⟨x0, y0, μ.cos theta0, μ.sin theta0⟩, [(x0, y0)], false, 0, μ.sin theta0, 0⟩
      (Or.inr rfl)
    rcases hinv with hno | hlast
    · exact absurd hout hno
    · simp only [Desert.trace_ray]
      exact hlast
  · intro μ atm x0 y0 theta0 ds max_steps domain record_every hin hout
    have hinv := ocean_loop_exit_last μ.hypot (Ocean.ray_ode μ.exp atm)
      ds domain record_every max_steps 0
      ⟨⟨x0, y0, μ.cos theta0, μ.sin theta0⟩, [(x0, y0)], μ.sin theta0, 0, y0, y0, 0⟩
      (Or.inl hin)
    rcases hinv with hno | hlast
    · exact absurd hout hno
    · simp only [Ocean.trace_ray]
      exact hlast

/-- C6 witness: the sampling theorem applied to concrete traces — launch
points recorded, a recorded and a skipped continuing step, appended exit
points, and domain-exit traces whose sequences end with the final point. -/
theorem trace_points_sampling_witness :
    (Desert.trace_ray demoFns demoDesertAtm0 0 10 0 1 2
        ⟨0, 3000, 0, 200⟩ 0 2).points.head? = some (0, 10)
    ∧ (Ocean.trace_ray demoFns demoOceanAtm 5 (1/2) 0 1 5
        ⟨0, 100, 0, 100⟩ 1).points.head? = some (5, 1/2)
    ∧ (⟨⟨0, 9, 0, -1⟩, [(0, 10), (0, 9)], false, 0, -1, 1⟩ : Desert.LoopSt).points
        = [(0, 10)] ++ [(0, 9)]
    ∧ (⟨⟨5, 9, 0, -1⟩, [(5, 10), (5, 9)], -1, 0, 9, 10, 1⟩ : Ocean.LoopSt).points
        = [(5, 10)] ++ [(5, 9)]
    ∧ (⟨⟨1, 10, 1, 0⟩, [(0, 10), (1, 10)], false, 0, 0, 1⟩ : Desert.LoopSt).points
        = [(0, 10)] ++ [(1, 10)]
    ∧ (⟨⟨5, -1/2, 0, -1⟩, [(5, 1/2), (5, 0)], -1, 0, -1/2, 1/2, 1⟩ : Ocean.LoopSt).points
        = [(5, 1/2)] ++ [(5, 0)]
    ∧ (Desert.trace_ray demoFns2 demoDesertAtm0 0 10 0 1 5
        ⟨0, 1/2, 0, 200⟩ 0 8).points.getLast? = some (1, 10)
    ∧ (Ocean.trace_ray demoFns demoOceanAtm 5 (1/2) 0 1 5
        ⟨0, 100, 0, 100⟩ 1).points.getLast? = some (5, 0) := by
  have hd1 : Desert.body demoFns.hypot (Desert.ray_ode demoFns.exp demoDesertAtm0 0)
      demoDesertAtm0.scale_height 1 ⟨0, 3000, 0, 200⟩ 2 0
      ⟨⟨0, 10, 0, -1⟩, [(0, 10)], false, 0, -1, 0⟩
      = .cont ⟨⟨0, 9, 0, -1⟩, [(0, 10), (0, 9)], false, 0, -1, 1⟩ := by
    norm_num [Desert.body, Desert.local_step, Desert.ray_ode, DesertAtmosphere.n,
      DesertAtmosphere.dn_dy, _renorm, rk4_step, rk4_trial, demoFns, demoDesertAtm0]
  have ho1 : Ocean.body demoFns.hypot (Ocean.ray_ode demoFns.exp demoOceanAtm) 1
      ⟨0, 100, 0, 100⟩ 1 0 ⟨⟨5, 10, 0, -1⟩, [(5, 10)], -1, 0, 10, 10, 0⟩
      = .cont ⟨⟨5, 9, 0, -1⟩, [(5, 10), (5, 9)], -1, 0, 9, 10, 1⟩ := by
    norm_num [Ocean.body, Ocean.ray_ode, OceanAtmosphere.n, OceanAtmosphere.dn_dy,
      _renorm, rk4_step, rk4_trial, demoFns, demoOceanAtm]
  have hd2 : Desert.body demoFns2.hypot (Desert.ray_ode demoFns2.exp demoDesertAtm0 0)
      demoDesertAtm0.scale_height 1 ⟨0, 1/2, 0, 200⟩ 8 0
      ⟨⟨0, 10, 1, 0⟩, [(0, 10)], false, 0, 0, 0⟩
      = .stop ⟨⟨1, 10, 1, 0⟩, [(0, 10), (1, 10)], false, 0, 0, 1⟩ := by
    norm_num [Desert.body, Desert.local_step, Desert.ray_ode, DesertAtmosphere.n,
      DesertAtmosphere.dn_dy, _renorm, rk4_step, rk4_trial, demoFns2, demoDesertAtm0]
  have ho2 : Ocean.body demoFns.hypot (Ocean.ray_ode demoFns.exp demoOceanAtm) 1
      ⟨0, 100, 0, 100⟩ 1 0 ⟨⟨5, 1/2, 0, -1⟩, [(5, 1/2)], -1, 0, 1/2, 1/2, 0⟩
      = .stop ⟨⟨5, -1/2, 0, -1⟩, [(5, 1/2), (5, 0)], -1, 0, -1/2, 1/2, 1⟩ := by
    norm_num [Ocean.body, Ocean.ray_ode, OceanAtmosphere.n, OceanAtmosphere.dn_dy,
      _renorm, rk4_step, rk4_trial, demoFns, demoOceanAtm]
  have hd2' : Desert.body demoFns2.hypot (Desert.ray_ode demoFns2.exp demoDesertAtm0 0)
      demoDesertAtm0.scale_height 1 ⟨0, 1/2, 0, 200⟩ 8 0
      ⟨⟨0, 10, demoFns2.cos 0, demoFns2.sin 0⟩, [(0, 10)], false, 0, demoFns2.sin 0, 0⟩
      = .stop ⟨⟨1, 10, 1, 0⟩, [(0, 10), (1, 10)], false, 0, 0, 1⟩ := by
    norm_num [Desert.body, Desert.local_step, Desert.ray_ode, DesertAtmosphere.n,
      DesertAtmosphere.dn_dy, _renorm, rk4_step, rk4_trial, demoFns2, demoDesertAtm0]
  have ho2' : Ocean.body demoFns.hypot (Ocean.ray_ode demoFns.exp demoOceanAtm) 1
      ⟨0, 100, 0, 100⟩ 1 0
      ⟨⟨5, 1/2, demoFns.cos 0, demoFns.sin 0⟩, [(5, 1/2)], demoFns.sin 0, 0, 1/2, 1/2, 0⟩
      = .stop ⟨⟨5, -1/2, 0, -1⟩, [(5, 1/2), (5, 0)], -1, 0, -1/2, 1/2, 1⟩ := by
    norm_num [Ocean.body, Ocean.ray_ode, OceanAtmosphere.n, OceanAtmosphere.dn_dy,
      _renorm, rk4_step, rk4_trial, demoFns, demoOceanAtm]
  have hloopd : Desert.loop demoFns2.hypot (Desert.ray_ode demoFns2.exp demoDesertAtm0 0)
      demoDesertAtm0.scale_height 1 ⟨0, 1/2, 0, 200⟩ 8 5 0
      ⟨⟨0, 10, demoFns2.cos 0, demoFns2.sin 0⟩, [(0, 10)], false, 0, demoFns2.sin 0, 0⟩
      = ⟨⟨1, 10, 1, 0⟩, [(0, 10), (1, 10)], false, 0, 0, 1⟩ :=
    desert_loop_succ_of_stop demoFns2.hypot (Desert.ray_ode demoFns2.exp demoDesertAtm0 0)
      demoDesertAtm0.scale_height 1 ⟨0, 1/2, 0, 200⟩ 8 4 0
      ⟨⟨0, 10, demoFns2.cos 0, demoFns2.sin 0⟩, [(0, 10)], false, 0, demoFns2.sin 0, 0⟩
      ⟨⟨1, 10, 1, 0⟩, [(0, 10), (1, 10)], false, 0, 0, 1⟩ hd2'
  have hloopo : Ocean.loop demoFns.hypot (Ocean.ray_ode demoFns.exp demoOceanAtm) 1
      ⟨0, 100, 0, 100⟩ 1 5 0
      ⟨⟨5, 1/2, demoFns.cos 0, demoFns.sin 0⟩, [(5, 1/2)], demoFns.sin 0, 0, 1/2, 1/2, 0⟩
      = ⟨⟨5, -1/2, 0, -1⟩, [(5, 1/2), (5, 0)], -1, 0, -1/2, 1/2, 1⟩ :=
    ocean_loop_succ_of_stop demoFns.hypot (Ocean.ray_ode demoFns.exp demoOceanAtm) 1
      ⟨0, 100, 0, 100⟩ 1 4 0
      ⟨⟨5, 1/2, demoFns.cos 0, demoFns.sin 0⟩, [(5, 1/2)], demoFns.sin 0, 0, 1/2, 1/2, 0⟩
      ⟨⟨5, -1/2, 0, -1⟩, [(5, 1/2), (5, 0)], -1, 0, -1/2, 1/2, 1⟩ ho2'
  have w3 : (⟨⟨0, 9, 0, -1⟩, [(0, 10), (0, 9)], false, 0, -1, 1⟩ : Desert.LoopSt).points
      = [(0, 10)] ++ [(0, 9)] := by
    simpa using trace_points_sampling.2.2.1 demoFns.hypot
      (Desert.ray_ode demoFns.exp demoDesertAtm0 0) demoDesertAtm0.scale_height 1
      ⟨0, 3000, 0, 200⟩ 2 0 ⟨⟨0, 10, 0, -1⟩, [(0, 10)], false, 0, -1, 0⟩
      ⟨⟨0, 9, 0, -1⟩, [(0, 10), (0, 9)], false, 0, -1, 1⟩ hd1
  have w4 : (⟨⟨5, 9, 0, -1⟩, [(5, 10), (5, 9)], -1, 0, 9, 10, 1⟩ : Ocean.LoopSt).points
      = [(5, 10)] ++ [(5, 9)] := by
    simpa using trace_points_sampling.2.2.2.1 demoFns.hypot
      (Ocean.ray_ode demoFns.exp demoOceanAtm) 1 ⟨0, 100, 0, 100⟩ 1 0
      ⟨⟨5, 10, 0, -1⟩, [(5, 10)], -1, 0, 10, 10, 0⟩
      ⟨⟨5, 9, 0, -1⟩, [(5, 10), (5, 9)], -1, 0, 9, 10, 1⟩ ho1
  have w5 : (⟨⟨1, 10, 1, 0⟩, [(0, 10), (1, 10)], false, 0, 0, 1⟩ : Desert.LoopSt).points
      = [(0, 10)] ++ [(1, 10)] := by
    simpa using trace_points_sampling.2.2.2.2.1 demoFns2.hypot
      (Desert.ray_ode demoFns2.exp demoDesertAtm0 0) demoDesertAtm0.scale_height 1
      ⟨0, 1/2, 0, 200⟩ 8 0 ⟨⟨0, 10, 1, 0⟩, [(0, 10)], false, 0, 0, 0⟩
      ⟨⟨1, 10, 1, 0⟩, [(0, 10), (1, 10)], false, 0, 0, 1⟩ hd2
  have w6 : (⟨⟨5, -1/2, 0, -1⟩, [(5, 1/2), (5, 0)], -1, 0, -1/2, 1/2, 1⟩ : Ocean.LoopSt).points
      = [(5, 1/2)] ++ [(5, 0)] := by
    simpa [Ocean.exit_point] using trace_points_sampling.2.2.2.2.2.1 demoFns.hypot
      (Ocean.ray_ode demoFns.exp demoOceanAtm) 1 ⟨0, 100, 0, 100⟩ 1 0
      ⟨⟨5, 1/2, 0, -1⟩, [(5, 1/2)], -1, 0, 1/2, 1/2, 0⟩
      ⟨⟨5, -1/2, 0, -1⟩, [(5, 1/2), (5, 0)], -1, 0, -1/2, 1/2, 1⟩ ho2
  refine ⟨trace_points_sampling.1 demoFns demoDesertAtm0 0 10 0 1 2 ⟨0, 3000, 0, 200⟩ 0 2,
    trace_points_sampling.2.1 demoFns demoOceanAtm 5 (1/2) 0 1 5 ⟨0, 100, 0, 100⟩ 1,
    w3, w4, w5, w6, ?_, ?_⟩
  · have happ := trace_points_sampling.2.2.2.2.2.2.1 demoFns2 demoDesertAtm0 0 10 0 1 5
      ⟨0, 1/2, 0, 200⟩ 0 8 (by rw [hloopd]; norm_num [Desert.out_of_domain])
    rw [hloopd] at happ
    exact happ
  · have happ := trace_points_sampling.2.2.2.2.2.2.2 demoFns demoOceanAtm 5 (1/2) 0 1 5
      ⟨0, 100, 0, 100⟩ 1 (by norm_num [Ocean.out_of_domain, demoFns])
      (by rw [hloopo]; norm_num [Ocean.out_of_domain])
    rw [hloopo] at happ
    exact happ.trans (by norm_num [Ocean.exit_point])
